import Mathlib

/-!
Shallow embedding of the scan-orchestration core of soter-trivy
(src/soter/trivy/app.py and src/soter/trivy/db.py).

Python strings are modelled as `List Char`; JSON values decoded by
`json.loads` as the inductive `Json`; Python exceptions as the `PyErr`
error type of an `Except` result.  Subprocess invocations are modelled by
their observable outcome: the return code, the parse of captured stdout
(`none` when stdout is not valid JSON, so that `json.loads` raises), and
the captured stderr text.
-/

namespace SoterTrivy

/-- Python string `upper()` restricted to ASCII case mapping. -/
def upperStr (s : List Char) : List Char := s.map Char.toUpper

/-- Python string `lower()` restricted to ASCII case mapping. -/
def lowerStr (s : List Char) : List Char := s.map Char.toLower

/-- Python regex class `\s` on ASCII text: space, tab, newline, carriage
return, vertical tab, form feed. -/
def isSpaceCh (c : Char) : Bool :=
  c = ' ' || c = '\t' || c = '\n' || c = '\r' || c = '\x0b' || c = '\x0c'

/-- Python substring test `needle in hay` on strings. -/
def containsSub (needle hay : List Char) : Bool :=
  match hay with
  | [] => needle.isEmpty
  | _ :: t => needle.isPrefixOf hay || containsSub needle t

/-- JSON values as decoded by Python `json.loads` (object keys keep their
textual order; numbers restricted to integers, which is all the scanner
output relevant here uses). -/
inductive Json where
  | null
  | bool (b : Bool)
  | num (n : Int)
  | str (s : List Char)
  | arr (elems : List Json)
  | obj (fields : List (List Char × Json))

/-- Python truthiness of a decoded JSON value (`if result:`). -/
def jsonTruthy : Json → Bool
  | .null => false
  | .bool b => b
  | .num n => n != 0
  | .str s => !s.isEmpty
  | .arr xs => !xs.isEmpty
  | .obj fs => !fs.isEmpty

/-- Python exceptions that the embedded code can raise.  `trivyError` is
the `TrivyError(JsonRpcException)` with code 100 raised on a non-zero
scanner exit, carrying the captured stderr; the others are builtin Python
exceptions escaping from subscripts, `json.loads`, method access and enum
lookup. -/
inductive PyErr where
  | trivyError (stderr : List Char)
  | jsonDecodeError
  | keyError (key : List Char)
  | indexError
  | typeError
  | attributeError
deriving DecidableEq

/-- Subscript `value[key]` for a string key: a `KeyError` on a dict
without the key, a `TypeError` on values that do not support string
subscripts. -/
def jsonGetKey (j : Json) (k : List Char) : Except PyErr Json :=
  match j with
  | .obj fields =>
      match fields.lookup k with
      | some v => .ok v
      | none => .error (.keyError k)
  | _ => .error .typeError

/-- Method `value.get(key)` of a dict: `None` when the key is absent.
Subscript-unsupporting values never reach this in the embedded code
paths, where a prior string subscript has already raised. -/
def jsonGet (j : Json) (k : List Char) : Option Json :=
  match j with
  | .obj fields => fields.lookup k
  | _ => none

/-- Subscript `value[0]` as applied to a truthy decoded JSON value: the
head of a list, the first character of a string, a `KeyError` on a dict
(JSON object keys are strings, never the integer 0), a `TypeError`
otherwise. -/
def jsonItem0 (j : Json) : Except PyErr Json :=
  match j with
  | .arr (x :: _) => .ok x
  | .arr [] => .error .indexError
  | .str (c :: _) => .ok (.str [c])
  | .str [] => .error .indexError
  | .obj _ => .error (.keyError ['0'])
  | _ => .error .typeError

/-- Python `a or b` on a decoded JSON value against a default. -/
def pyOr (a b : Json) : Json := if jsonTruthy a then a else b

/-!
URL extraction: `URL_REGEX = re.compile(r'(https?://\S+)')` and
`URL_REGEX.findall(reference)`.  At a given position the pattern matches
exactly when the text starts with the literal scheme `https://` or
`http://` followed by at least one non-whitespace character, and the
match extends greedily over the maximal run of non-whitespace.
`findall` scans left to right, emitting non-overlapping matches and
resuming after the end of each match.
-/

/-- Attempt of the URL pattern anchored at the start of `s`: the matched
text and the remaining text after it. -/
def matchUrlAt (s : List Char) : Option (List Char × List Char) :=
  let scheme8 := ['h', 't', 't', 'p', 's', ':', '/', '/']
  let scheme7 := ['h', 't', 't', 'p', ':', '/', '/']
  if scheme8.isPrefixOf s then
    let rest := s.drop 8
    let body := rest.takeWhile (fun c => !isSpaceCh c)
    if body.isEmpty then none
    else some (scheme8 ++ body, rest.drop body.length)
  else if scheme7.isPrefixOf s then
    let rest := s.drop 7
    let body := rest.takeWhile (fun c => !isSpaceCh c)
    if body.isEmpty then none
    else some (scheme7 ++ body, rest.drop body.length)
  else none

/-- Worker for `findall`: the fuel starts at the length of the text and
every step consumes at least one character while spending one unit of
fuel, so the fuel never runs out before the text does. -/
def findUrlsAux : Nat → List Char → List (List Char)
  | 0, _ => []
  | _ + 1, [] => []
  | fuel + 1, s@(_ :: rest) =>
      match matchUrlAt s with
      | some (m, after) => m :: findUrlsAux fuel after
      | none => findUrlsAux fuel rest

/-- All matches of the URL pattern in `s`, in order:
`URL_REGEX.findall(reference)`. -/
def findUrls (s : List Char) : List (List Char) := findUrlsAux s.length s

/-- The module constant PREFERRED_REFERENCES: preferred reference
sources, in order of preference. -/
def PREFERRED_REFERENCES : List (List Char) :=
  [ "cve.mitre.org".toList
  , "redhat.com".toList
  , "debian.org".toList
  , "gentoo.org".toList
  , "opensuse.org".toList
  , "suse.com".toList
  , "python.org".toList
  , "oracle.com".toList
  ]

/-- Loop of `select_reference` over the preference list: for each
preferred substring, `next(url for url in reference_urls if pref in url)`
returns the first matching URL and a `StopIteration` falls through to
the next preference; after the loop, `next(iter(reference_urls), None)`
returns the first URL overall, or `None`. -/
def selectLoop (prefs : List (List Char)) (urls : List (List Char)) : Option (List Char) :=
  match prefs with
  | [] => urls.head?
  | p :: rest =>
      match urls.find? (fun url => containsSub p url) with
      | some u => some u
      | none => selectLoop rest urls

/-- Function `select_reference(references)` of app.py: extracts the URLs
embedded in the free-text references, in order, and picks the preferred
one. -/
def select_reference (references : List (List Char)) : Option (List Char) :=
  selectLoop PREFERRED_REFERENCES ((references.map findUrls).flatten)

/-- Modelled from the spec: clauses 2 to 4 of the URL-selection algorithm
of spec section 4.2, applied to the extracted URL list: the first URL
containing the first preferred host substring that any URL contains;
otherwise the first URL overall; absent when no URL was extracted. -/
def specSelectFrom (urls : List (List Char)) : Option (List Char) :=
  match PREFERRED_REFERENCES.find? (fun p => urls.any (fun url => containsSub p url)) with
  | some p => urls.find? (fun url => containsSub p url)
  | none => if urls.isEmpty then none else urls.head?

/-- Modelled from the spec: the four-clause URL-selection algorithm of
spec section 4.2, written from the spec's words for comparison with
`select_reference`; clause 1 is the extraction of all URL matches from
the reference entries in order, within and across entries. -/
def specSelectReference (references : List (List Char)) : Option (List Char) :=
  specSelectFrom ((references.map findUrls).flatten)

/-- Modelled from the spec: the canonical severity enum of the external
`soter.scanner.models` package (not under src/), listed in spec section 3
as LOW/MEDIUM/HIGH/CRITICAL/UNKNOWN. -/
inductive Severity where
  | LOW
  | MEDIUM
  | HIGH
  | CRITICAL
  | UNKNOWN
deriving DecidableEq

/-- Modelled from the spec: the package kind of the external
`soter.scanner.models` package (not under src/), OS or library per spec
section 3. -/
inductive PackageType where
  | OS
  | LIBRARY
deriving DecidableEq

/-- Python enum name lookup `Severity[name]`: the member whose name is
exactly `name`, if any. -/
def severityFromName (name : List Char) : Option Severity :=
  if name = "LOW".toList then some .LOW
  else if name = "MEDIUM".toList then some .MEDIUM
  else if name = "HIGH".toList then some .HIGH
  else if name = "CRITICAL".toList then some .CRITICAL
  else if name = "UNKNOWN".toList then some .UNKNOWN
  else none

/-- The severity mapping of app.py line 158: `Severity[s.upper()]`. -/
def severityOf (s : List Char) : Option Severity := severityFromName (upperStr s)

/-- Modelled from the spec: one normalized finding, the
`ImageVulnerability` record of the external `soter.scanner.models`
package (not under src/), with the attributes listed in spec section 3;
fields that app.py fills with raw decoded JSON values are kept as
`Json`. -/
structure ImageVulnerability where
  title : Json
  severity : Severity
  info_url : Option (List Char)
  package_name : Json
  package_version : Json
  package_type : PackageType
  package_location : Option Json
  fix_version : Option Json

/-- Python iteration over a decoded JSON value: a list yields its
elements, a string its characters, a dict its keys; other values raise a
`TypeError`. -/
def pyIter : Json → Except PyErr (List Json)
  | .arr xs => .ok xs
  | .str s => .ok (s.map (fun c => Json.str [c]))
  | .obj fs => .ok (fs.map (fun f => Json.str f.1))
  | _ => .error .typeError

/-- The argument check of `URL_REGEX.findall(reference)`: a reference
that is not a string raises a `TypeError`. -/
def asPyStr : Json → Except PyErr (List Char)
  | Json.str s => .ok s
  | _ => .error PyErr.typeError

/-- Left-to-right effectful map, the evaluation order of a Python list
comprehension: the first raised exception aborts the whole list. -/
def mapEx {α β : Type} (f : α → Except PyErr β) : List α → Except PyErr (List β)
  | [] => .ok []
  | x :: xs =>
      match f x with
      | .error e => .error e
      | .ok y =>
          match mapEx f xs with
          | .error e => .error e
          | .ok ys => .ok (y :: ys)

/-- Normalization of one raw vulnerability record: the construction of
one `ImageVulnerability` in the list comprehension of app.py lines
156-165, with the keyword arguments evaluated in source order.  The
severity lookup `Severity[vuln['Severity'].upper()]` raises an
`AttributeError` when the severity value is not a string and a `KeyError`
carrying the uppercased token when it is not a member name; the
references are `vuln.get('References') or []` and each reference fed to
`URL_REGEX.findall` must be a string. -/
def normalizeVuln (vuln : Json) : Except PyErr ImageVulnerability :=
  match jsonGetKey vuln ("VulnerabilityID".toList) with
  | .error e => .error e
  | .ok title =>
  match jsonGetKey vuln ("Severity".toList) with
  | .error e => .error e
  | .ok sevJ =>
  match sevJ with
  | Json.str sevS =>
    match severityOf sevS with
    | none => .error (.keyError (upperStr sevS))
    | some sev =>
      match pyIter (pyOr ((jsonGet vuln ("References".toList)).getD Json.null) (Json.arr [])) with
      | .error e => .error e
      | .ok refItems =>
      match mapEx asPyStr refItems with
      | .error e => .error e
      | .ok refs =>
      match jsonGetKey vuln ("PkgName".toList) with
      | .error e => .error e
      | .ok pkgName =>
      match jsonGetKey vuln ("InstalledVersion".toList) with
      | .error e => .error e
      | .ok pkgVersion =>
          .ok { title := title
              , severity := sev
              , info_url := select_reference refs
              , package_name := pkgName
              , package_version := pkgVersion
              , package_type := PackageType.OS
              , package_location := none
              , fix_version := jsonGet vuln ("FixedVersion".toList) }
  | _ => .error .attributeError

/-- Function `scan_image` of app.py, lines 150-169, as a function of the
observable outcome of the scan subprocess: the return code, the parse of
the captured stdout (`none` when `json.loads` would raise) and the
captured stderr.  A non-zero return code raises `TrivyError(stderr)`;
otherwise the decoded result is normalized: a falsy result (such as an
empty array) yields the empty list, and a truthy one has
`result[0]['Vulnerabilities'] or []` iterated through `normalizeVuln`. -/
def scan_image (returncode : Nat) (stdoutParsed : Option Json) (stderr : List Char) :
    Except PyErr (List ImageVulnerability) :=
  if returncode ≠ 0 then .error (.trivyError stderr)
  else
    match stdoutParsed with
    | none => .error .jsonDecodeError
    | some result =>
        if jsonTruthy result then
          match jsonItem0 result with
          | .error e => .error e
          | .ok first =>
          match jsonGetKey first ("Vulnerabilities".toList) with
          | .error e => .error e
          | .ok vulnsJ =>
          match pyIter (pyOr vulnsJ (Json.arr [])) with
          | .error e => .error e
          | .ok vulns => mapEx normalizeVuln vulns
        else .ok []

/-- Modelled from the spec: the `ScannerStatus` record of the external
`soter.scanner.models` package (not under src/), with the attributes of
spec section 3; the version is kept as the raw decoded JSON value that
app.py passes, and the property map is a list of key/value string
pairs. -/
structure ScannerStatus where
  kind : List Char
  vendor : List Char
  version : Json
  available : Bool
  message : List Char
  properties : Option (List (List Char × List Char))

mutual
/-- Python `repr` of a decoded JSON value, modulo escaping inside string
quotes. -/
def pyRepr : Json → List Char
  | .null => "None".toList
  | .bool b => if b then "True".toList else "False".toList
  | .num n => (toString n).toList
  | .str s => Char.ofNat 39 :: (s ++ [Char.ofNat 39])
  | .arr xs => "[".toList ++ ((pyReprList xs).intersperse (", ".toList)).flatten ++ "]".toList
  | .obj fs =>
      "\x7b".toList ++ ((pyReprFields fs).intersperse (", ".toList)).flatten ++ "\x7d".toList

/-- Elementwise `repr` of the items of a decoded JSON list. -/
def pyReprList : List Json → List (List Char)
  | [] => []
  | x :: xs => pyRepr x :: pyReprList xs

/-- Entrywise `repr` of the key/value pairs of a decoded JSON object: a
quoted key, a colon, the value's `repr`. -/
def pyReprFields : List (List Char × Json) → List (List Char)
  | [] => []
  | f :: fs =>
      ((Char.ofNat 39 :: (f.1 ++ [Char.ofNat 39])) ++ ": ".toList ++ pyRepr f.2)
        :: pyReprFields fs
end

/-- Python `str(value)` on a decoded JSON value: a string is returned
bare, everything else through `repr`. -/
def pyStrTop (j : Json) : List Char :=
  match j with
  | .str s => s
  | _ => pyRepr j

/-- Function `status` of app.py, lines 65-99, as a function of the
observable outcome of the version-query subprocess.  On a zero return
code the stdout is decoded (`json.loads` raising on malformed text),
`version_info['Version']` is read (raising a `KeyError` when absent) and
the property map is built from `version_info.get('VulnerabilityDB', {})`
(whose `.items()` raises an `AttributeError` on a non-dict value); an
available status is returned.  On a non-zero return code the failure is
logged and an unavailable status is returned. -/
def trivyStatus (returncode : Nat) (stdoutParsed : Option Json) (stderr : List Char) :
    Except PyErr ScannerStatus :=
  if returncode = 0 then
    match stdoutParsed with
    | none => .error .jsonDecodeError
    | some version_info =>
        match jsonGetKey version_info ("Version".toList) with
        | .error e => .error e
        | .ok version =>
        match (jsonGet version_info ("VulnerabilityDB".toList)).getD (Json.obj []) with
        | Json.obj fields =>
            .ok { kind := "Trivy".toList
                , vendor := "Aqua Security".toList
                , version := version
                , available := true
                , message := "available".toList
                , properties := some (fields.map (fun f =>
                    ("vulnerabilitydb/".toList ++ lowerStr f.1, pyStrTop f.2))) }
        | _ => .error .attributeError
  else
    .ok { kind := "Trivy".toList
        , vendor := "Aqua Security".toList
        , version := Json.str ("unknown".toList)
        , available := false
        , message := "could not detect status".toList
        , properties := none }

/-- Sample raw vulnerability record with a well-formed severity. -/
def c10Vuln : Json := Json.obj
  [ ("VulnerabilityID".toList, Json.str ("CVE-2021-1".toList))
  , ("Severity".toList, Json.str ("critical".toList))
  , ("References".toList, Json.arr [Json.str ("see https://cve.mitre.org/x".toList)])
  , ("PkgName".toList, Json.str ("openssl".toList))
  , ("InstalledVersion".toList, Json.str ("1.0".toList))
  ]

/-- Sample decoded scanner output holding `c10Vuln` as its only
finding. -/
def c10Scan : Json := Json.arr [Json.obj [("Vulnerabilities".toList, Json.arr [c10Vuln])]]

/-- The normalized record that `scan_image` produces from `c10Scan`. -/
def c10Normalized : ImageVulnerability :=
  { title := Json.str ("CVE-2021-1".toList)
  , severity := Severity.CRITICAL
  , info_url := some ("https://cve.mitre.org/x".toList)
  , package_name := Json.str ("openssl".toList)
  , package_version := Json.str ("1.0".toList)
  , package_type := PackageType.OS
  , package_location := none
  , fix_version := none }

/-- Sample raw vulnerability record with the unrecognized severity token
of the spec's example. -/
def c5BadVuln : Json := Json.obj
  [ ("VulnerabilityID".toList, Json.str ("CVE-2021-2".toList))
  , ("Severity".toList, Json.str ("Sev9".toList))
  , ("PkgName".toList, Json.str ("x".toList))
  , ("InstalledVersion".toList, Json.str ("1".toList))
  ]

/-- Sample decoded scanner output holding `c5BadVuln` as its only
finding. -/
def c5BadScan : Json := Json.arr [Json.obj [("Vulnerabilities".toList, Json.arr [c5BadVuln])]]

/-!
Concurrency gate: `create_semaphore` builds `asyncio.Semaphore(N)` once
before serving, and each `scan_image` call runs
`async with app.scan_semaphore:` around the subprocess launch and wait
(app.py lines 122-150).  A burst of concurrent calls is modelled as a
small-step transition system over the program points of the calls and the
semaphore counter; external-process execution and normalization happen at
distinct points, and the counter is adjusted atomically at the with-block
boundaries.
-/

/-- Program points of one `scan_image` call: parsing the image reference
(line 136), suspended acquiring the semaphore (line 137), holding one
gate unit with the scan subprocess in flight (lines 142-150), past the
with-block doing the return-code check, JSON parse and normalization
(lines 151-169), and returned. -/
inductive PC where
  | start
  | waiting
  | running
  | checking
  | done
deriving DecidableEq

/-- Whether a call at this program point holds a unit of the concurrency
gate: exactly the body of the async-with block. -/
def holdsSlot : PC → Bool
  | .running => true
  | _ => false

/-- Global state of a burst: the semaphore's available count and the
program point of every call. -/
structure GateState where
  avail : Nat
  tasks : List PC
deriving DecidableEq

/-- Interleaving semantics of the burst: any one call takes its next
step.  Acquiring requires an available unit and consumes it before the
subprocess is launched; the unit is returned in the same step in which
the with-block is exited on subprocess completion, before any
normalization step. -/
inductive GateStep : GateState → GateState → Prop where
  | parse (a : Nat) (l r : List PC) :
      GateStep ⟨a, l ++ PC.start :: r⟩ ⟨a, l ++ PC.waiting :: r⟩
  | acquire (a : Nat) (l r : List PC) :
      GateStep ⟨a + 1, l ++ PC.waiting :: r⟩ ⟨a, l ++ PC.running :: r⟩
  | complete (a : Nat) (l r : List PC) :
      GateStep ⟨a, l ++ PC.running :: r⟩ ⟨a + 1, l ++ PC.checking :: r⟩
  | finish (a : Nat) (l r : List PC) :
      GateStep ⟨a, l ++ PC.checking :: r⟩ ⟨a, l ++ PC.done :: r⟩

/-- Initial state of a burst of `k` calls against a gate of capacity
`N`: the semaphore is full and every call is about to parse its image
reference. -/
def initGate (N k : Nat) : GateState := ⟨N, List.replicate k PC.start⟩

/-- States reachable by interleaving the burst's calls. -/
def GateReachable (N k : Nat) (s : GateState) : Prop :=
  Relation.ReflTransGen GateStep (initGate N k) s

/-- Number of scan subprocess invocations simultaneously in flight. -/
def inFlight (s : GateState) : Nat := s.tasks.countP (fun pc => holdsSlot pc)

/-!
Database refresher (src/soter/trivy/db.py).  `do_update` runs the
database-download command and logs the outcome; `update` is its
synchronous console entry point, whose process exit status is the code of
an uncaught `sys.exit` (none in `do_update`, hence 0); `periodic_update`
runs `do_update` then sleeps, forever.  The `Except Nat` error component
models `sys.exit(code)` escaping the function.
-/

/-- Log lines of one `do_update` invocation as a function of the
subprocess outcome. -/
inductive LogMsg where
  | info (text : List Char)
  | error (text : List Char)
deriving DecidableEq

/-- The log lines `do_update` emits for a given outcome of the
database-download subprocess. -/
def updateLogs (rc : Nat) (stderr : List Char) : List LogMsg :=
  LogMsg.info ("Updating Trivy vulnerability database...".toList) ::
    (if rc = 0 then [LogMsg.info ("Trivy vulnerability database updated".toList)]
     else [LogMsg.error (("Trivy command failed: ".toList) ++ stderr)])

/-- Function `do_update` of db.py, lines 63-78, as a function of the
outcome of the database-download subprocess: logs the start, runs the
command, logs success on a zero exit and the captured stderr on a
non-zero exit, and returns in both cases without raising or exiting. -/
def do_update (rc : Nat) (stderr : List Char) : Except Nat (List LogMsg) :=
  if rc = 0 then
    .ok [ LogMsg.info ("Updating Trivy vulnerability database...".toList)
        , LogMsg.info ("Trivy vulnerability database updated".toList) ]
  else
    .ok [ LogMsg.info ("Updating Trivy vulnerability database...".toList)
        , LogMsg.error (("Trivy command failed: ".toList) ++ stderr) ]

/-- The `trivy-db-update` console entry point `update = run_async(do_update)`:
its process exit status is the code of an uncaught `sys.exit`, or 0 when
the coroutine returns normally. -/
def update (rc : Nat) (stderr : List Char) : Nat :=
  match do_update rc stderr with
  | .ok _ => 0
  | .error c => c

/-- Finitely many observed iterations of the infinite `periodic_update`
loop of db.py lines 85-92, one database-download outcome per iteration;
each iteration runs `do_update` and then sleeps the configured
interval. -/
def periodic_update_n : List (Nat × List Char) → Except Nat (List LogMsg)
  | [] => .ok []
  | (rc, e) :: rest =>
      match do_update rc e with
      | .error c => .error c
      | .ok logs =>
          match periodic_update_n rest with
          | .error c => .error c
          | .ok more => .ok (logs ++ more)

/-!
Theorems.
-/

/-- Every failure of a string subscript is a Python builtin exception. -/
theorem jsonGetKey_err_not_trivy (j : Json) (k : List Char) (e : PyErr)
    (h : jsonGetKey j k = .error e) : ∀ st, e ≠ PyErr.trivyError st := by
  unfold jsonGetKey at h
  repeat' split at h
  all_goals try exact Except.noConfusion h
  all_goals injection h with h2
  all_goals subst h2
  all_goals intro st hc
  all_goals cases hc

/-- Every failure of the subscript `value[0]` is a Python builtin
exception. -/
theorem jsonItem0_err_not_trivy (j : Json) (e : PyErr)
    (h : jsonItem0 j = .error e) : ∀ st, e ≠ PyErr.trivyError st := by
  unfold jsonItem0 at h
  repeat' split at h
  all_goals try exact Except.noConfusion h
  all_goals injection h with h2
  all_goals subst h2
  all_goals intro st hc
  all_goals cases hc

/-- Every failure of Python iteration is a Python builtin exception. -/
theorem pyIter_err_not_trivy (j : Json) (e : PyErr)
    (h : pyIter j = .error e) : ∀ st, e ≠ PyErr.trivyError st := by
  unfold pyIter at h
  repeat' split at h
  all_goals try exact Except.noConfusion h
  all_goals injection h with h2
  all_goals subst h2
  all_goals intro st hc
  all_goals cases hc

/-- Every failure of the reference-string check is a Python builtin
exception. -/
theorem asPyStr_err_not_trivy (j : Json) (e : PyErr)
    (h : asPyStr j = .error e) : ∀ st, e ≠ PyErr.trivyError st := by
  unfold asPyStr at h
  repeat' split at h
  all_goals try exact Except.noConfusion h
  all_goals injection h with h2
  all_goals subst h2
  all_goals intro st hc
  all_goals cases hc

/-- Failure of `mapEx` comes from the failure of some input element. -/
theorem mapEx_err_mem {α β : Type} (f : α → Except PyErr β) (l : List α) (e : PyErr)
    (h : mapEx f l = .error e) : ∃ x ∈ l, f x = .error e := by
  induction l generalizing e with
  | nil => cases h
  | cons a xs ih =>
      unfold mapEx at h
      split at h
      · cases h
        rename_i ha
        exact ⟨a, List.mem_cons_self a xs, ha⟩
      · split at h
        · cases h
          rename_i y0 hy0 hys0
          obtain ⟨x0, hx0, hfx0⟩ := ih e hys0
          exact ⟨x0, List.mem_cons_of_mem a hx0, hfx0⟩
        · cases h

/-- Every success of `normalizeVuln` carries the hard-coded OS package
kind and absent package location. -/
theorem normalizeVuln_ok_os (v : Json) (iv : ImageVulnerability)
    (h : normalizeVuln v = .ok iv) :
    iv.package_type = PackageType.OS ∧ iv.package_location = none := by
  unfold normalizeVuln at h
  repeat' split at h
  all_goals try exact Except.noConfusion h
  injection h with h2
  subst h2
  exact ⟨rfl, rfl⟩

/-- Every failure of `normalizeVuln` is a Python builtin exception, never
the `TrivyError` that a non-zero scanner exit raises. -/
theorem normalizeVuln_err_not_trivy (v : Json) (e : PyErr)
    (h : normalizeVuln v = .error e) : ∀ st, e ≠ PyErr.trivyError st := by
  unfold normalizeVuln at h
  repeat' split at h
  all_goals try exact Except.noConfusion h
  all_goals injection h with h2
  all_goals subst h2
  all_goals first
    | (intro st hc; exact PyErr.noConfusion hc)
    | exact jsonGetKey_err_not_trivy _ _ _ (by assumption)
    | exact pyIter_err_not_trivy _ _ (by assumption)
    | (obtain ⟨x0, hx0, hfx0⟩ := mapEx_err_mem asPyStr _ _ (by assumption)
       exact asPyStr_err_not_trivy _ _ hfx0)

/-- Success of `mapEx` maps each output element back to an input element
that produced it. -/
theorem mapEx_ok_mem {α β : Type} (f : α → Except PyErr β) (l : List α) (ys : List β)
    (h : mapEx f l = .ok ys) (y : β) (hy : y ∈ ys) : ∃ x ∈ l, f x = .ok y := by
  induction l generalizing ys with
  | nil =>
      unfold mapEx at h
      injection h with h2
      subst h2
      cases hy
  | cons x xs ih =>
      unfold mapEx at h
      cases hfx : f x with
      | error e0 => rw [hfx] at h; exact Except.noConfusion h
      | ok y0 =>
          rw [hfx] at h
          cases hrest : mapEx f xs with
          | error e0 => rw [hrest] at h; exact Except.noConfusion h
          | ok ys0 =>
              rw [hrest] at h
              injection h with h2
              subst h2
              rcases List.mem_cons.mp hy with hEq | hTail
              · exact ⟨x, List.mem_cons_self x xs, hEq ▸ hfx⟩
              · obtain ⟨x0, hx0, hfx0⟩ := ih ys0 hrest hTail
                exact ⟨x0, List.mem_cons_of_mem x hx0, hfx0⟩

/-- Success of `mapEx` means every input element succeeded. -/
theorem mapEx_ok_all {α β : Type} (f : α → Except PyErr β) (l : List α) (ys : List β)
    (h : mapEx f l = .ok ys) : ∀ x ∈ l, ∃ y, f x = .ok y := by
  induction l generalizing ys with
  | nil => intro x hx; cases hx
  | cons a xs ih =>
      unfold mapEx at h
      cases hfa : f a with
      | error e0 => rw [hfa] at h; exact Except.noConfusion h
      | ok y0 =>
          rw [hfa] at h
          cases hrest : mapEx f xs with
          | error e0 => rw [hrest] at h; exact Except.noConfusion h
          | ok ys0 =>
              intro x hx
              rcases List.mem_cons.mp hx with hEq | hTail
              · exact ⟨y0, hEq ▸ hfa⟩
              · exact ih ys0 hrest x hTail

/-- Failure of some input element makes `mapEx` fail as a whole. -/
theorem mapEx_err_of_mem {a b : Type} (f : a → Except PyErr b) (l : List a) (x : a)
    (hx : x ∈ l) (e0 : PyErr) (hfx : f x = .error e0) : ∃ e, mapEx f l = .error e := by
  induction l with
  | nil => cases hx
  | cons hd tl ih =>
      cases hfa : f hd with
      | error ea => exact ⟨ea, by unfold mapEx; rw [hfa]⟩
      | ok ya =>
          rcases List.mem_cons.mp hx with hEq | hTail
          · subst hEq
            rw [hfx] at hfa
            exact Except.noConfusion hfa
          · obtain ⟨e, he⟩ := ih hTail
            exact ⟨e, by unfold mapEx; rw [hfa, he]⟩

/-- Every failure of `scan_image` on a zero return code is a Python
builtin exception, never the scanner-fault `TrivyError`. -/
theorem scan_zero_err_not_trivy (p : Option Json) (st : List Char) (e : PyErr)
    (h : scan_image 0 p st = .error e) : ∀ s2, e ≠ PyErr.trivyError s2 := by
  unfold scan_image at h
  rw [if_neg (by simp)] at h
  repeat' split at h
  all_goals try exact Except.noConfusion h
  all_goals first
    | (injection h with h2
       subst h2
       first
         | (intro s2 hc; exact PyErr.noConfusion hc)
         | exact jsonItem0_err_not_trivy _ _ (by assumption)
         | exact jsonGetKey_err_not_trivy _ _ _ (by assumption)
         | exact pyIter_err_not_trivy _ _ (by assumption))
    | (obtain ⟨x0, hx0, hfx0⟩ := mapEx_err_mem normalizeVuln _ _ h
       exact normalizeVuln_err_not_trivy _ _ hfx0)

/-- C2 counterexample: a zero-exit version query whose stdout is not
valid JSON makes `status` raise the decode error of `json.loads` instead
of returning an unavailable `ScannerStatus`, refuting the claim that
`status()` never raises on a zero exit with malformed output. -/
theorem claim_C2_counterexample :
    trivyStatus 0 none [] = .error PyErr.jsonDecodeError := rfl

/-- C2 as amended: on every non-zero exit of the version-query
invocation, `status()` returns a `ScannerStatus` with available = false
rather than raising; a zero exit with malformed JSON stdout (or one
lacking the Version field) raises instead of reporting unavailability. -/
theorem claim_C2 (rc : Nat) (p : Option Json) (e : List Char) (h : rc ≠ 0) :
    ∃ st, trivyStatus rc p e = .ok st ∧ st.available = false := by
  unfold trivyStatus
  rw [if_neg h]
  exact ⟨_, rfl, rfl⟩

/-- Witness for C2: a version query exiting 1 yields an unavailable
status. -/
theorem claim_C2_witness :
    ∃ st, trivyStatus 1 none [] = .ok st ∧ st.available = false :=
  claim_C2 1 none [] (by decide)

/-- C4 counterexample: a zero-exit scan whose first result element lacks
the Vulnerabilities key raises a `KeyError` instead of returning an empty
list, refuting the claim for the missing-field case. -/
theorem claim_C4_counterexample :
    scan_image 0 (some (Json.arr [Json.obj []])) []
      = .error (PyErr.keyError ("Vulnerabilities".toList)) := rfl

/-- C4 as amended: a zero-exit scan whose raw JSON result is an empty
array, or whose first result element has a null (not missing)
Vulnerabilities field, returns an empty vulnerability list and raises no
error; a first element missing the key raises a `KeyError`. -/
theorem claim_C4 :
    (∀ e : List Char, scan_image 0 (some (Json.arr [])) e = .ok []) ∧
    (∀ (e : List Char) (fields : List (List Char × Json)) (rest : List Json),
        fields.lookup ("Vulnerabilities".toList) = some Json.null →
        scan_image 0 (some (Json.arr (Json.obj fields :: rest))) e = .ok []) := by
  constructor
  · intro e
    rfl
  · intro e fields rest h
    simp [scan_image, jsonItem0, jsonGetKey, pyOr, jsonTruthy, pyIter, mapEx]
    simp at h
    simp [h, mapEx]

/-- Witness for C4: the empty raw array and a sole element carrying a
null Vulnerabilities field both normalize to the empty list. -/
theorem claim_C4_witness :
    scan_image 0 (some (Json.arr [])) [] = .ok [] ∧
    scan_image 0 (some (Json.arr [Json.obj [("Vulnerabilities".toList, Json.null)]])) []
      = .ok [] :=
  ⟨claim_C4.1 [], claim_C4.2 [] [("Vulnerabilities".toList, Json.null)] [] rfl⟩

/-- C5: the severity token is mapped through `upper()` so the mapping is
case-insensitive; any casing of CRITICAL maps to the CRITICAL member and
the unrecognized token SEV9 maps to no member; a record with an
unrecognized severity makes normalization fail with a `KeyError` carrying
the uppercased token (no default severity is substituted); a zero-exit
scan output any of whose records fails normalization fails as a whole
scan; and every error a zero-exit scan raises is distinct from the
scanner-fault `TrivyError`. -/
theorem claim_C5 :
    (∀ s t : List Char, upperStr s = upperStr t → severityOf s = severityOf t) ∧
    severityOf ("CrItIcAl".toList) = some Severity.CRITICAL ∧
    severityOf ("SEV9".toList) = none ∧
    (∀ (fields : List (List Char × Json)) (s : List Char) (tJ : Json),
        fields.lookup ("VulnerabilityID".toList) = some tJ →
        fields.lookup ("Severity".toList) = some (Json.str s) →
        severityOf s = none →
        normalizeVuln (Json.obj fields) = .error (.keyError (upperStr s))) ∧
    (∀ (fields0 : List (List Char × Json)) (vl rest : List Json) (st : List Char)
        (v : Json) (e0 : PyErr),
        fields0.lookup ("Vulnerabilities".toList) = some (Json.arr vl) →
        v ∈ vl → normalizeVuln v = .error e0 →
        ∃ e, scan_image 0 (some (Json.arr (Json.obj fields0 :: rest))) st = .error e ∧
          ∀ s2, e ≠ PyErr.trivyError s2) ∧
    (∀ (p : Option Json) (st : List Char) (e : PyErr),
        scan_image 0 p st = .error e → ∀ s2, e ≠ PyErr.trivyError s2) := by
  refine ⟨?_, by decide, by decide, ?_, ?_, scan_zero_err_not_trivy⟩
  · intro s t h
    unfold severityOf
    rw [h]
  · intro fields s tJ h1 h2 h3
    simp [normalizeVuln, jsonGetKey]
    simp at h1 h2
    simp [h1, h2, h3]
  · intro fields0 vl rest st v e0 hlk hv hne
    obtain ⟨e, he⟩ := mapEx_err_of_mem normalizeVuln vl v hv e0 hne
    have hscan :
        scan_image 0 (some (Json.arr (Json.obj fields0 :: rest))) st = .error e := by
      cases vl with
      | nil => cases hv
      | cons v0 tl =>
          simp [scan_image, jsonItem0, jsonGetKey, pyOr, jsonTruthy, pyIter]
          simp at hlk
          simp [hlk, he]
    exact ⟨e, hscan, scan_zero_err_not_trivy _ _ _ hscan⟩

/-- Witness for C5: lower-case and upper-case LOW agree; the record with
severity token Sev9 fails normalization with a KeyError on SEV9; that
error differs from a scanner fault. -/
theorem claim_C5_witness :
    severityOf ("low".toList) = severityOf ("LOW".toList) ∧
    normalizeVuln c5BadVuln = .error (.keyError ("SEV9".toList)) ∧
    (∃ e, scan_image 0 (some c5BadScan) [] = .error e ∧
        ∀ s2, e ≠ PyErr.trivyError s2) ∧
    PyErr.keyError ("SEV9".toList) ≠ PyErr.trivyError [] := by
  refine ⟨claim_C5.1 ("low".toList) ("LOW".toList) (by decide), ?_, ?_, ?_⟩
  · exact claim_C5.2.2.2.1
      [ ("VulnerabilityID".toList, Json.str ("CVE-2021-2".toList))
      , ("Severity".toList, Json.str ("Sev9".toList))
      , ("PkgName".toList, Json.str ("x".toList))
      , ("InstalledVersion".toList, Json.str ("1".toList)) ]
      ("Sev9".toList) (Json.str ("CVE-2021-2".toList)) rfl rfl (by decide)
  · exact claim_C5.2.2.2.2.1
      [("Vulnerabilities".toList, Json.arr [c5BadVuln])] [c5BadVuln] [] [] c5BadVuln
      (PyErr.keyError ("SEV9".toList)) rfl (List.mem_singleton.mpr rfl) rfl
  · exact claim_C5.2.2.2.2.2 (some c5BadScan) [] _ (by rfl) []

/-- C6: every scan invocation exiting with a non-zero code raises the
scanner fault `TrivyError` carrying the captured stderr text, and in
particular never returns an empty or partial result list. -/
theorem claim_C6 (rc : Nat) (p : Option Json) (stderrText : List Char) (h : rc ≠ 0) :
    scan_image rc p stderrText = .error (.trivyError stderrText) := by
  unfold scan_image
  rw [if_pos h]

/-- Witness for C6: a scan exiting 1 raises the scanner fault carrying
its stderr. -/
theorem claim_C6_witness :
    scan_image 1 none ("permission denied".toList)
      = .error (.trivyError ("permission denied".toList)) :=
  claim_C6 1 none ("permission denied".toList) (by decide)

/-- C10: every vulnerability record that `scan_image` returns carries the
OS package kind and an absent package location, for every subprocess
outcome, because the normalizer hard-codes both fields. -/
theorem claim_C10 (rc : Nat) (p : Option Json) (st : List Char)
    (vs : List ImageVulnerability) (h : scan_image rc p st = .ok vs) :
    ∀ v ∈ vs, v.package_type = PackageType.OS ∧ v.package_location = none := by
  intro v hv
  unfold scan_image at h
  repeat' split at h
  all_goals try exact Except.noConfusion h
  all_goals first
    | (injection h with h2
       subst h2
       cases hv)
    | (obtain ⟨x0, hx0, hfx0⟩ := mapEx_ok_mem normalizeVuln _ _ h v hv
       exact normalizeVuln_ok_os _ _ hfx0)

/-- Witness for C10: the record normalized from the sample scan output
has the OS package kind and no package location. -/
theorem claim_C10_witness :
    c10Normalized.package_type = PackageType.OS ∧ c10Normalized.package_location = none := by
  have h : scan_image 0 (some c10Scan) [] = .ok [c10Normalized] := by rfl
  exact claim_C10 0 (some c10Scan) [] [c10Normalized] h c10Normalized
    (List.mem_singleton.mpr rfl)

/-- Closed form of the preference loop: it returns the first URL
containing the first preference that any URL contains, and otherwise
falls back to the first URL. -/
theorem selectLoop_spec (prefs urls : List (List Char)) :
    selectLoop prefs urls =
      match prefs.find? (fun p => urls.any (fun url => containsSub p url)) with
      | some p => urls.find? (fun url => containsSub p url)
      | none => urls.head? := by
  induction prefs with
  | nil => rfl
  | cons p rest ih =>
      cases h : urls.find? (fun url => containsSub p url) with
      | some u =>
          have hp : (fun q => urls.any (fun url => containsSub q url)) p = true := by
            simp only [List.any_eq_true]
            exact ⟨u, List.mem_of_find?_eq_some h, List.find?_some h⟩
          rw [selectLoop, h,
            List.find?_cons_of_pos (p := fun q => urls.any (fun url => containsSub q url)) rest hp]
          exact h.symm
      | none =>
          have hp : ¬ (fun q => urls.any (fun url => containsSub q url)) p = true := by
            simp only [List.any_eq_true, not_exists, not_and]
            exact fun x hx => List.find?_eq_none.mp h x hx
          rw [selectLoop, h,
            List.find?_cons_of_neg (p := fun q => urls.any (fun url => containsSub q url)) rest hp]
          exact ih

/-- C3: for every list of free-text reference entries, `select_reference`
agrees with the spec's four-clause algorithm: it extracts the URL matches
of all entries in order, returns for the first preferred host substring
contained in some extracted URL the first such URL, otherwise the first
extracted URL overall, and returns no URL when none was extracted. -/
theorem claim_C3 (references : List (List Char)) :
    select_reference references = specSelectReference references := by
  unfold select_reference specSelectReference specSelectFrom
  rw [selectLoop_spec]
  cases PREFERRED_REFERENCES.find?
      (fun p => ((references.map findUrls).flatten).any (fun url => containsSub p url)) with
  | some p => rfl
  | none => cases (references.map findUrls).flatten <;> simp

/-- Hit lemma for the preference loop: when some URL in the list contains
the preference at index `i`, the loop returns a URL, and the returned URL
contains a preference at an index at most `i`. -/
theorem selectLoop_hit (ps urls : List (List Char)) (i : Nat) (hi : i < ps.length)
    (u : List Char) (hu : u ∈ urls) (hc : containsSub ps[i] u = true) :
    ∃ r k, ∃ hk : k < ps.length,
      selectLoop ps urls = some r ∧ k ≤ i ∧ containsSub ps[k] r = true := by
  induction ps generalizing i with
  | nil => exact absurd hi (by simp)
  | cons p rest ih =>
      cases h : urls.find? (fun url => containsSub p url) with
      | some r =>
          refine ⟨r, 0, by simp, ?_, Nat.zero_le i, ?_⟩
          · rw [selectLoop, h]
          · simpa using List.find?_some h
      | none =>
          cases i with
          | zero =>
              have := List.find?_eq_none.mp h u hu
              simp only [List.getElem_cons_zero] at hc
              exact absurd hc (by simpa using this)
          | succ j =>
              have hj : j < rest.length := Nat.lt_of_succ_lt_succ hi
              obtain ⟨r, k, hk, hsel, hki, hcr⟩ :=
                ih j hj (by simpa using hc)
              refine ⟨r, k + 1, Nat.succ_lt_succ hk, ?_, Nat.succ_le_succ hki, ?_⟩
              · rw [selectLoop, h, hsel]
              · simpa using hcr

/-- C7: for any reference list whose extracted URLs include one containing
the preferred host substring at preference index `i`, the selector returns
a URL, and the returned URL contains a preferred host substring at an
index at most `i`; in particular a URL containing only lower-preference
host substrings is never returned over it, regardless of the order of the
URLs in the reference list. -/
theorem claim_C7 (references : List (List Char)) (i : Nat)
    (hi : i < PREFERRED_REFERENCES.length) (u : List Char)
    (hu : u ∈ (references.map findUrls).flatten)
    (hc : containsSub PREFERRED_REFERENCES[i] u = true) :
    ∃ r k, ∃ hk : k < PREFERRED_REFERENCES.length,
      select_reference references = some r ∧ k ≤ i ∧
      containsSub PREFERRED_REFERENCES[k] r = true :=
  selectLoop_hit PREFERRED_REFERENCES _ i hi u hu hc

/-- Witness for C7: a reference list with an `example.com` URL appearing
before an `access.redhat.com` one still selects the `redhat.com` URL. -/
theorem claim_C7_witness :
    ∃ r k, ∃ hk : k < PREFERRED_REFERENCES.length,
      select_reference
        [ "a https://example.com/z".toList, "b https://access.redhat.com/err".toList ] = some r ∧
      k ≤ 1 ∧ containsSub PREFERRED_REFERENCES[k] r = true :=
  claim_C7
    [ "a https://example.com/z".toList, "b https://access.redhat.com/err".toList ]
    1 (by decide) ("https://access.redhat.com/err".toList) (by decide) (by decide)

/-- Accounting invariant of the gate: the available count plus the
number of in-flight subprocess invocations is the configured capacity in
every reachable state. -/
theorem gate_inv (N k : Nat) (s : GateState) (h : GateReachable N k s) :
    s.avail + inFlight s = N := by
  induction h with
  | refl =>
      simp only [initGate, inFlight]
      have hz : (List.replicate k PC.start).countP (fun pc => holdsSlot pc) = 0 := by
        apply List.countP_eq_zero.mpr
        intro a ha
        rw [List.eq_of_mem_replicate ha]
        simp [holdsSlot]
      omega
  | tail hsteps hstep ih =>
      cases hstep with
      | parse a l r =>
          simp [inFlight, List.countP_append, List.countP_cons, holdsSlot] at ih ⊢
          omega
      | acquire a l r =>
          simp [inFlight, List.countP_append, List.countP_cons, holdsSlot] at ih ⊢
          omega
      | complete a l r =>
          simp [inFlight, List.countP_append, List.countP_cons, holdsSlot] at ih ⊢
          omega
      | finish a l r =>
          simp [inFlight, List.countP_append, List.countP_cons, holdsSlot] at ih ⊢
          omega

/-- C1: under any interleaving of a burst of concurrent `scan_image`
calls against a gate of capacity N with N at least 1, at no reachable
state are more than N scan subprocess invocations simultaneously in
flight; each call acquires one unit before launching the subprocess (the
only step into the in-flight point consumes an available unit) and
releases it afterwards. -/
theorem claim_C1 (N k : Nat) (hN : 1 ≤ N) (s : GateState)
    (h : GateReachable N k s) : inFlight s ≤ N := by
  have hinv := gate_inv N k s h
  omega

/-- Witness for C1: a burst of three calls against a gate of capacity 2,
after one call parsed, acquired and launched, has at most 2 subprocesses
in flight. -/
theorem claim_C1_witness : inFlight ⟨1, [PC.running, PC.start, PC.start]⟩ ≤ 2 :=
  claim_C1 2 3 (by decide) ⟨1, [PC.running, PC.start, PC.start]⟩
    (Relation.ReflTransGen.tail
      (Relation.ReflTransGen.tail Relation.ReflTransGen.refl
        (GateStep.parse 2 [] [PC.start, PC.start]))
      (GateStep.acquire 1 [] [PC.start, PC.start]))

/-- C8: the concurrency-gate unit is released in the very step in which
the subprocess completes and the with-block is exited — every step that
lowers the number of slot-holding calls returns one unit to the gate in
that same step — and the program point at which exit-code checking, JSON
parsing and vulnerability normalization are performed holds no scan
slot. -/
theorem claim_C8 :
    (∀ s s2 : GateState, GateStep s s2 →
        s2.tasks.countP (fun pc => holdsSlot pc) < s.tasks.countP (fun pc => holdsSlot pc) →
        s2.avail = s.avail + 1) ∧
    holdsSlot PC.checking = false ∧ holdsSlot PC.done = false := by
  refine ⟨?_, rfl, rfl⟩
  intro s s2 hstep hlt
  cases hstep with
  | parse a l r =>
      simp [List.countP_append, List.countP_cons, holdsSlot] at hlt
  | acquire a l r =>
      simp [List.countP_append, List.countP_cons, holdsSlot] at hlt
  | complete a l r => rfl
  | finish a l r =>
      simp [List.countP_append, List.countP_cons, holdsSlot] at hlt

/-- Witness for C8: the completion step of a lone running call returns
the unit to the gate in the same step. -/
theorem claim_C8_witness :
    (GateState.mk 1 [PC.checking]).avail = (GateState.mk 0 [PC.running]).avail + 1 :=
  claim_C8.1 ⟨0, [PC.running]⟩ ⟨1, [PC.checking]⟩ (GateStep.complete 0 [] []) (by decide)

/-- C9: `do_update` returns normally for every subprocess outcome,
logging success on a zero exit and the failure text on a non-zero exit,
and never raises or exits; hence the `trivy-db-update` entry point always
exits 0, and the periodic loop performs every iteration on schedule —
the logs of any finite run are exactly the concatenation of each
iteration's logs, failed updates included. -/
theorem claim_C9 :
    (∀ (rc : Nat) (e : List Char), do_update rc e = .ok (updateLogs rc e)) ∧
    (∀ (rc : Nat) (e : List Char), update rc e = 0) ∧
    (∀ outs : List (Nat × List Char),
        periodic_update_n outs = .ok ((outs.map (fun o => updateLogs o.1 o.2)).flatten)) := by
  have h1 : ∀ (rc : Nat) (e : List Char), do_update rc e = .ok (updateLogs rc e) := by
    intro rc e
    by_cases h : rc = 0 <;> simp [do_update, updateLogs, h]
  refine ⟨h1, ?_, ?_⟩
  · intro rc e
    unfold update
    rw [h1]
  · intro outs
    induction outs with
    | nil => rfl
    | cons o rest ih =>
        cases o with
        | mk rc e =>
            unfold periodic_update_n
            rw [h1, ih]
            simp

end SoterTrivy
